import Mathlib

/-!
Shallow embedding of the `ghl` CLI configuration engine (`src/config.rs`).

The interactive prompts of the original program are modelled by passing the
value the prompt would return as an explicit argument; the filesystem under
the fixed `~/.ghl` directory is modelled by the `Store` state record.  All
string manipulation is embedded at the level of character lists so that the
definitions compute by kernel reduction.
-/

/-- Errors of the interactive prompt library (`inquire::InquireError`).
`operationCanceled` is the variant returned by `ask_init` on an explicit
"no"; the other variants stand for the remaining error cases. -/
inductive InquireError where
  | operationCanceled
  | operationInterrupted
  | ioError (msg : String)
  | custom (msg : String)
deriving DecidableEq

/-- Error produced when reading a preference file that was never written
(`std::io::Error` with kind `NotFound`, as returned by `fs::read_to_string`
on a missing file). -/
inductive FsError where
  | notFound
deriving DecidableEq

/-- The state of the preference storage: the fixed directory `~/.ghl`
together with the contents of its two files `token` and `desc.md`
(`none` = the file does not exist). -/
structure Store where
  dirExists : Bool
  token : Option String
  desc : Option String
deriving DecidableEq

/-- `struct Config` (config.rs lines 12-15). -/
structure Config where
  pr_name : String
  branch : String
deriving DecidableEq

/-- Rust `str::trim` on the characters of a string: drop leading and
trailing whitespace. -/
def trim (s : String) : String :=
  String.mk (((s.data.dropWhile Char.isWhitespace).reverse.dropWhile
    Char.isWhitespace).reverse)

/-- Rust `str::split_whitespace`: split at whitespace, discarding empty
chunks. -/
def split_whitespace (s : String) : List String :=
  ((s.data.splitOnP Char.isWhitespace).map String.mk).filter (fun w => w != "")

/-- Rust `linear_branch.split('-').collect::<Vec<&str>>()`: split at every
hyphen, keeping empty chunks. -/
def split_on_hyphen (s : String) : List String :=
  (s.data.splitOn '-').map String.mk

/-- Rust `str::to_uppercase`, restricted to the basic latin letters that
`Char.toUpper` handles. -/
def toUpperStr (s : String) : String :=
  String.mk (s.data.map Char.toUpper)

/-- The apostrophe character `'\''` removed by the branch-slug derivation. -/
def apostrophe : Char := Char.ofNat 39

/-- The character pipeline of `name.replace(' ', "-").replace('\'', "").to_lowercase()`
(config.rs line 138): spaces become hyphens, apostrophes are removed, and
the result is lower-cased. -/
def slugifyChars (cs : List Char) : List Char :=
  ((cs.map (fun c => if c = ' ' then '-' else c)).filter
    (fun c => c != apostrophe)).map Char.toLower

/-- The branch-slug derivation of `ask_init` (config.rs line 138). -/
def slugify (s : String) : String :=
  String.mk (slugifyChars s.data)

/-- `inquire::validator::Validation`. -/
inductive Validation where
  | valid
  | invalid (msg : String)
deriving DecidableEq

/-- `get_not_empty_validator` (config.rs lines 208-213): the prompt
validator used for the commit name and the issue branch name.  It rejects
exactly the empty string (the raw input, not its trimmed form). -/
def get_not_empty_validator (value : String) : Validation :=
  if value = "" then Validation.invalid "You must enter a value." else Validation.valid

/-- `Config::set_github_token` (config.rs lines 18-42).  `input` is the
value returned by the skippable prompt (`none` = skipped).  Returns the
`written` flag and the new storage state.  An empty (untrimmed) or absent
input is a no-op; otherwise the directory and file are created if missing
and the trimmed value is written. -/
def set_github_token (input : Option String) (st : Store) : Bool × Store :=
  match input with
  | none => (false, st)
  | some token =>
    if token = "" then
      (false, st)
    else
      let token := trim token
      (true, { dirExists := true, token := some token, desc := st.desc })

/-- `Config::get_github_token` (config.rs lines 44-48): read the token
file, failing with `NotFound` when it was never written. -/
def get_github_token (st : Store) : Except FsError String :=
  match st.token with
  | none => Except.error FsError.notFound
  | some t => Except.ok t

/-- `Config::get_default_desc` (config.rs lines 89-93). -/
def get_default_desc (st : Store) : Except FsError String :=
  match st.desc with
  | none => Except.error FsError.notFound
  | some d => Except.ok d

/-- `Config::set_default_desc` (config.rs lines 50-87).  `input` is the
value returned by the skippable editor prompt.  Absent or empty input is a
no-op, and so is an input textually identical to the currently stored
value (`actual`); otherwise the value is written as-is (no trimming). -/
def set_default_desc (input : Option String) (st : Store) : Bool × Store :=
  let actual :=
    match get_default_desc st with
    | Except.ok d => d
    | Except.error _ => ""
  match input with
  | none => (false, st)
  | some desc =>
    if desc = "" then
      (false, st)
    else if actual = desc then
      (false, st)
    else
      (true, { dirExists := true, token := st.token, desc := some desc })

/-- The eleven entries of the `Select` prompt of `ask_commit`
(config.rs lines 96-108), verbatim. -/
def type_options : List String :=
  ["feat        A new feature",
   "fix         A bug fix",
   "docs        Documentation only changes",
   "style       Changes that do not affect the meaning of the code",
   "refactor    A code change that neither fixes a bug nor adds a feature",
   "perf        A code change that improves performance",
   "test        Adding missing tests or correcting existing tests",
   "build       Changes that affect the build system or external dependencies",
   "ci          Changes to our CI configuration files and scripts",
   "chore       Other changes that don't modify src or test files",
   "revert      Reverts a previous commit"]

/-- The eleven commit-type keywords. -/
def kinds : List String :=
  ["feat", "fix", "docs", "style", "refactor", "perf", "test", "build",
   "ci", "chore", "revert"]

/-- `Config::ask_commit` (config.rs lines 95-133).  `typeChoice` is the
selected entry of the `Select` prompt, `scope` the result of the skippable
scope prompt, `nameInput` the input accepted by the name prompt.  Returns
`(commit_name, _type, name)` exactly as the source does: the type is the
first whitespace-separated word of the selected entry, the name is the
trimmed input, and the message embeds the trimmed scope in parentheses
when the raw scope is non-empty. -/
def ask_commit (typeChoice : String) (scope : Option String) (nameInput : String) :
    String × String × String :=
  let t := (split_whitespace typeChoice).headD ""
  let name := trim nameInput
  let commit_name :=
    match scope with
    | some sc =>
      if sc = "" then t ++ ": " ++ name
      else t ++ "(" ++ trim sc ++ "): " ++ name
    | none => t ++ ": " ++ name
  (commit_name, t, name)

/-- `Config::ask_init` (config.rs lines 135-159).  `repoRes` is the result
of the collaborator call `git::get_current_repo()` and `confirm` the
result of the final confirmation prompt; both are propagated exactly as
the `?` operator and the `match` on `confirm` do in the source. -/
def ask_init (typeChoice : String) (scope : Option String) (nameInput : String)
    (repoRes : Except InquireError String) (confirm : Except InquireError Bool) :
    Except InquireError (String × String × String) :=
  let r := ask_commit typeChoice scope nameInput
  let commit_name := r.1
  let t := r.2.1
  let name := r.2.2
  let branch := t ++ "/" ++ slugify name
  match repoRes with
  | Except.error e => Except.error e
  | Except.ok repo =>
    let gh_compare_url :=
      "https://github.com/" ++ repo ++ "/compare/" ++ branch ++ "?expand=1"
    match confirm with
    | Except.ok true => Except.ok (commit_name, branch, gh_compare_url)
    | Except.ok false => Except.error InquireError.operationCanceled
    | Except.error e => Except.error e

/-- Accumulating decimal evaluation of a digit run, `none` as soon as a
non-digit is met. -/
def digitsToNatAux : Nat → List Char → Option Nat
  | acc, [] => some acc
  | acc, c :: cs =>
    if c.isDigit then digitsToNatAux (acc * 10 + (c.toNat - 48)) cs else none

/-- Decimal value of a non-empty all-digit character run. -/
def digitsToNat (cs : List Char) : Option Nat :=
  match cs with
  | [] => none
  | _ :: _ => digitsToNatAux 0 cs

/-- Rust `str::parse::<u32>()` (as used at config.rs line 169): an optional
leading `+`, then one or more decimal digits, rejecting values that do not
fit in 32 bits. -/
def parseU32 (s : String) : Option Nat :=
  match s.data with
  | [] => none
  | c :: rest =>
    let ds := if c = '+' then rest else c :: rest
    match digitsToNat ds with
    | none => none
    | some n => if n < 4294967296 then some n else none

/-- `Config::ask_pr` (config.rs lines 161-181).  `linear_branch` is the
input accepted by the issue-branch prompt (validated non-empty), the other
arguments feed the nested `ask_commit` call.  The bracketed issue tag is
appended exactly when the split on `-` has more than one segment and the
second segment parses as a `u32`. -/
def ask_pr (linear_branch : String) (typeChoice : String) (scope : Option String)
    (nameInput : String) : Config :=
  let r := ask_commit typeChoice scope nameInput
  let pr_name := r.1
  let t := r.2.1
  let splited_branch := split_on_hyphen linear_branch
  let pr_name :=
    match splited_branch with
    | s0 :: s1 :: _ =>
      if (parseU32 s1).isSome then
        pr_name ++ " [" ++ toUpperStr s0 ++ "-" ++ s1 ++ "]"
      else pr_name
    | _ => pr_name
  { pr_name := pr_name, branch := t ++ "/" ++ linear_branch }

/-- `Config::confirm_pr` (config.rs lines 183-196): after printing the
five-step plan, the result of the confirmation prompt is returned
unchanged — an explicit "no" is `Ok(false)`, not an error. -/
def confirm_pr (_cfg : Config) (prompt : Except InquireError Bool) :
    Except InquireError Bool :=
  prompt

/-! ## Helper lemmas about `Char.toLower` -/

theorem char_toLower_eq_of_not_upper {c : Char}
    (h : ¬(c.toNat ≥ 65 ∧ c.toNat ≤ 90)) : c.toLower = c := by
  simp only [Char.toLower]
  rw [if_neg h]

theorem char_toLower_toNat_of_upper {c : Char}
    (h : c.toNat ≥ 65 ∧ c.toNat ≤ 90) : c.toLower.toNat = c.toNat + 32 := by
  simp only [Char.toLower]
  rw [if_pos h]
  have hv : (c.toNat + 32).isValidChar := Or.inl (by omega)
  rw [Char.ofNat, dif_pos hv]
  rfl

theorem char_toLower_cases (c : Char) :
    c.toLower = c ∨ (97 ≤ c.toLower.toNat ∧ c.toLower.toNat ≤ 122) := by
  by_cases h : c.toNat ≥ 65 ∧ c.toNat ≤ 90
  · right
    rw [char_toLower_toNat_of_upper h]
    omega
  · left
    exact char_toLower_eq_of_not_upper h

theorem char_toLower_idem (c : Char) : c.toLower.toLower = c.toLower := by
  rcases char_toLower_cases c with h | h
  · rw [h]
    exact h
  · exact char_toLower_eq_of_not_upper (by omega)

theorem char_toLower_ne_of_lt {c d : Char} (hd : d.toNat < 97) (h : c ≠ d) :
    c.toLower ≠ d := by
  rcases char_toLower_cases c with hc | hc
  · rw [hc]
    exact h
  · intro he
    rw [he] at hc
    omega

/-! ## The slug pipeline -/

theorem mem_slugifyChars {cs : List Char} {c : Char} (hc : c ∈ slugifyChars cs) :
    c ≠ ' ' ∧ c ≠ apostrophe ∧ c.toLower = c := by
  unfold slugifyChars at hc
  rcases List.mem_map.mp hc with ⟨d, hd, rfl⟩
  have hdf := List.mem_filter.mp hd
  have hdapos : d ≠ apostrophe := by simpa using hdf.2
  rcases List.mem_map.mp hdf.1 with ⟨e, _, rfl⟩
  have hdspace : (if e = ' ' then '-' else e) ≠ ' ' := by
    by_cases h : e = ' ' <;> simp [h]
  refine ⟨char_toLower_ne_of_lt (by decide) hdspace,
    char_toLower_ne_of_lt (by decide) hdapos, char_toLower_idem _⟩

theorem slugifyChars_fixed {l : List Char}
    (h : ∀ c ∈ l, c ≠ ' ' ∧ c ≠ apostrophe ∧ c.toLower = c) :
    slugifyChars l = l := by
  induction l with
  | nil => rfl
  | cons c cs ih =>
    obtain ⟨h1, h2, h3⟩ := h c (List.mem_cons_self c cs)
    have hrest := fun d hd => h d (List.mem_cons_of_mem c hd)
    show ((((c :: cs).map fun x => if x = ' ' then '-' else x).filter
        fun x => x != apostrophe).map Char.toLower) = c :: cs
    rw [List.map_cons, if_neg h1, List.filter_cons, if_pos (by simpa using h2),
      List.map_cons, h3]
    exact congrArg (List.cons c) (ih hrest)

/-- C8: slug derivation (replace spaces with hyphens, remove apostrophes,
lower-case) is idempotent: `slugify (slugify x) = slugify x` for every
input string `x`. -/
theorem slugify_idempotent (x : String) : slugify (slugify x) = slugify x := by
  unfold slugify
  exact congrArg String.mk (slugifyChars_fixed (fun c hc => mem_slugifyChars hc))

/-! ## Commit message derivation -/

theorem firstWord_type_options :
    ∀ t ∈ type_options, (split_whitespace t).headD "" ∈ kinds := by decide

/-- C1: for every selected type (one of the 11 fixed kinds) and every
non-empty trimmed name returned by `ask_commit`, the commit message is
`type ++ ": " ++ name` when the scope is absent or empty and
`type ++ "(" ++ trim scope ++ "): " ++ name` when a non-empty scope is
given (the code trims the scope before embedding it). -/
theorem ask_commit_message_format (typeChoice : String) (scope : Option String)
    (nameInput : String) (ht : typeChoice ∈ type_options)
    (hn : trim nameInput ≠ "") :
    (ask_commit typeChoice scope nameInput).2.1 ∈ kinds ∧
    (ask_commit typeChoice scope nameInput).2.2 = trim nameInput ∧
    (ask_commit typeChoice scope nameInput).2.2 ≠ "" ∧
    ((scope = none ∨ scope = some "") →
      (ask_commit typeChoice scope nameInput).1 =
        (ask_commit typeChoice scope nameInput).2.1 ++ ": " ++
          (ask_commit typeChoice scope nameInput).2.2) ∧
    (∀ sc, scope = some sc → sc ≠ "" →
      (ask_commit typeChoice scope nameInput).1 =
        (ask_commit typeChoice scope nameInput).2.1 ++ "(" ++ trim sc ++ "): " ++
          (ask_commit typeChoice scope nameInput).2.2) := by
  refine ⟨firstWord_type_options typeChoice ht, rfl, hn, ?_, ?_⟩
  · rintro (rfl | rfl) <;> rfl
  · rintro sc rfl hsc
    simp [ask_commit, hsc]

theorem ask_commit_message_format_witness :
    (ask_commit "fix         A bug fix" (some "auth") "handle expired tokens").1 =
      "fix(auth): handle expired tokens" := by
  have h := (ask_commit_message_format "fix         A bug fix" (some "auth")
    "handle expired tokens" (by decide) (by decide)).2.2.2.2 "auth" rfl (by decide)
  rw [h]
  decide

/-- C2: on the all-success path `ask_init` returns the commit message, the
branch `type ++ "/" ++ slugify name`, and the compare URL
`"https://github.com/" ++ repo ++ "/compare/" ++ branch ++ "?expand=1"`;
in particular type `fix`, scope `auth`, name `handle expired tokens`
yields commit message `"fix(auth): handle expired tokens"` and branch
`"fix/handle-expired-tokens"`. -/
theorem ask_init_branch_url (typeChoice : String) (scope : Option String)
    (nameInput repo : String) :
    ask_init typeChoice scope nameInput (Except.ok repo) (Except.ok true) =
      Except.ok ((ask_commit typeChoice scope nameInput).1,
        (ask_commit typeChoice scope nameInput).2.1 ++ "/" ++
          slugify (ask_commit typeChoice scope nameInput).2.2,
        "https://github.com/" ++ repo ++ "/compare/" ++
          ((ask_commit typeChoice scope nameInput).2.1 ++ "/" ++
            slugify (ask_commit typeChoice scope nameInput).2.2) ++ "?expand=1") ∧
    ask_init "fix         A bug fix" (some "auth") "handle expired tokens"
        (Except.ok repo) (Except.ok true) =
      Except.ok ("fix(auth): handle expired tokens", "fix/handle-expired-tokens",
        "https://github.com/" ++ repo ++ "/compare/" ++ "fix/handle-expired-tokens" ++
          "?expand=1") :=
  ⟨rfl, rfl⟩

/-- C3: in `ask_pr`, splitting the issue branch name on `-` and finding at
least two segments with the second parsing as a `u32` appends exactly
`" [" ++ FIRST_UPPER ++ "-" ++ second ++ "]"` to the commit-derived
`pr_name`; otherwise `pr_name` is unchanged.  The returned branch is
always `type ++ "/" ++ b` with `b` preserved verbatim. -/
theorem ask_pr_issue_tag (linear_branch typeChoice : String) (scope : Option String)
    (nameInput : String) (hb : linear_branch ≠ "") :
    (ask_pr linear_branch typeChoice scope nameInput).branch =
      (ask_commit typeChoice scope nameInput).2.1 ++ "/" ++ linear_branch ∧
    (∀ s0 s1 rest, split_on_hyphen linear_branch = s0 :: s1 :: rest →
      ((parseU32 s1).isSome = true →
        (ask_pr linear_branch typeChoice scope nameInput).pr_name =
          (ask_commit typeChoice scope nameInput).1 ++ " [" ++ toUpperStr s0 ++ "-" ++
            s1 ++ "]") ∧
      ((parseU32 s1).isSome = false →
        (ask_pr linear_branch typeChoice scope nameInput).pr_name =
          (ask_commit typeChoice scope nameInput).1)) ∧
    (∀ s0, split_on_hyphen linear_branch = [s0] →
      (ask_pr linear_branch typeChoice scope nameInput).pr_name =
        (ask_commit typeChoice scope nameInput).1) := by
  refine ⟨rfl, ?_, ?_⟩
  · intro s0 s1 rest hs
    constructor
    · intro hp
      simp [ask_pr, hs, hp]
    · intro hp
      simp [ask_pr, hs, hp]
  · intro s0 hs
    simp [ask_pr, hs]

theorem ask_pr_issue_tag_witness :
    (ask_pr "proj-123-extra" "feat        A new feature" none "add login").pr_name =
      "feat: add login [PROJ-123]" := by
  have h := ((ask_pr_issue_tag "proj-123-extra" "feat        A new feature" none
    "add login" (by decide)).2.1 "proj" "123" ["extra"] (by decide)).1 (by decide)
  rw [h]
  decide

/-! ## Preference store -/

/-- C4 counterexample: the whitespace-only input `" "` is empty after
trimming, yet `set_github_token` reports `written = true` and overwrites
the previously stored token with the empty string (the emptiness test at
config.rs line 22 runs on the raw input, before the trim at line 29). -/
theorem set_github_token_trimmed_empty_cex :
    trim " " = "" ∧
    (set_github_token (some " ")
      { dirExists := true, token := some "old", desc := none }).1 = true ∧
    (set_github_token (some " ")
      { dirExists := true, token := some "old", desc := none }).2.token =
      some "" := by decide

/-- C4 (amended): an absent or empty (untrimmed) input is a no-op
returning `written = false` and leaving the store byte-for-byte unchanged;
every other input — including whitespace-only input, which trims to the
empty string — writes the trimmed value (creating directory and file if
missing) and returns `written = true`. -/
theorem set_github_token_spec (input : Option String) (st : Store) :
    ((input = none ∨ input = some "") → set_github_token input st = (false, st)) ∧
    (∀ s, input = some s → s ≠ "" →
      set_github_token input st =
        (true, { dirExists := true, token := some (trim s), desc := st.desc })) := by
  constructor
  · rintro (rfl | rfl) <;> rfl
  · rintro s rfl hs
    simp [set_github_token, hs]

theorem set_github_token_spec_witness :
    set_github_token (some "") { dirExists := false, token := none, desc := none } =
      (false, { dirExists := false, token := none, desc := none }) ∧
    set_github_token (some " tok ") { dirExists := false, token := none, desc := none } =
      (true, { dirExists := true, token := some (trim " tok "), desc := none }) :=
  ⟨(set_github_token_spec (some "") _).1 (Or.inr rfl),
   (set_github_token_spec (some " tok ") _).2 " tok " rfl (by decide)⟩

/-- C5 counterexample: the required-name validator accepts the
whitespace-only input `" "` (it only rejects the raw empty string,
config.rs lines 208-213), so `ask_commit` can return a descriptor whose
name is empty after trimming. -/
theorem name_validator_trim_cex :
    get_not_empty_validator " " = Validation.valid ∧
    trim " " = "" ∧
    (ask_commit "feat        A new feature" none " ").2.2 = "" := by decide

/-- C5 (amended): the required name prompt rejects exactly the inputs that
are empty before trimming; the returned name is the trimmed input, so a
whitespace-only input passes validation and yields a descriptor whose
name is empty. -/
theorem name_validator_spec (value : String) :
    (get_not_empty_validator value = Validation.valid ↔ value ≠ "") ∧
    (∀ typeChoice scope, (ask_commit typeChoice scope value).2.2 = trim value) := by
  constructor
  · by_cases h : value = ""
    · simp [get_not_empty_validator, h]
    · simp [get_not_empty_validator, h]
  · intro _ _
    rfl

/-- C6: cancellation is encoded asymmetrically — `ask_init` turns an
explicit "no" into the error `OperationCanceled` (distinct from the other
error variants), returns the triple on "yes", and propagates prompt-level
errors unchanged, while `confirm_pr` returns an explicit "no" as the value
`Ok false`, not as an error. -/
theorem cancellation_asymmetry (typeChoice : String) (scope : Option String)
    (nameInput repo : String) (e : InquireError) (cfg : Config) :
    ask_init typeChoice scope nameInput (Except.ok repo) (Except.ok false) =
      Except.error InquireError.operationCanceled ∧
    ask_init typeChoice scope nameInput (Except.ok repo) (Except.ok true) =
      Except.ok ((ask_commit typeChoice scope nameInput).1,
        (ask_commit typeChoice scope nameInput).2.1 ++ "/" ++
          slugify (ask_commit typeChoice scope nameInput).2.2,
        "https://github.com/" ++ repo ++ "/compare/" ++
          ((ask_commit typeChoice scope nameInput).2.1 ++ "/" ++
            slugify (ask_commit typeChoice scope nameInput).2.2) ++ "?expand=1") ∧
    ask_init typeChoice scope nameInput (Except.ok repo) (Except.error e) =
      Except.error e ∧
    confirm_pr cfg (Except.ok false) = Except.ok false ∧
    confirm_pr cfg (Except.ok true) = Except.ok true ∧
    InquireError.operationCanceled ≠ InquireError.operationInterrupted :=
  ⟨rfl, rfl, rfl, rfl, rfl, by decide⟩

theorem set_default_desc_writes (x : String) (dir : Bool) (tok : Option String)
    (dsc : Option String) (hx : x ≠ "") (hd : dsc ≠ some x) :
    set_default_desc (some x) ⟨dir, tok, dsc⟩ = (true, ⟨true, tok, some x⟩) := by
  cases dsc with
  | none =>
    simp [set_default_desc, get_default_desc, hx, Ne.symm hx]
  | some d =>
    have hdx : d ≠ x := fun he => hd (by rw [he])
    simp [set_default_desc, get_default_desc, hx, hdx]

theorem set_default_desc_same (x : String) (dir : Bool) (tok : Option String)
    (hx : x ≠ "") :
    set_default_desc (some x) ⟨dir, tok, some x⟩ = (false, ⟨dir, tok, some x⟩) := by
  simp [set_default_desc, get_default_desc, hx]

/-- C7: for every non-empty `x` (not already stored), setting the default
description to `x` twice in a row returns `written = true` then
`written = false` with no write on the second call, and reading it back
afterwards returns exactly `x`. -/
theorem set_default_desc_twice (x : String) (st : Store) (hx : x ≠ "")
    (hst : st.desc ≠ some x) :
    (set_default_desc (some x) st).1 = true ∧
    set_default_desc (some x) (set_default_desc (some x) st).2 =
      (false, (set_default_desc (some x) st).2) ∧
    get_default_desc (set_default_desc (some x) st).2 = Except.ok x := by
  obtain ⟨dir, tok, dsc⟩ := st
  have h1 := set_default_desc_writes x dir tok dsc hx hst
  rw [h1]
  exact ⟨rfl, set_default_desc_same x true tok hx, rfl⟩

theorem set_default_desc_twice_witness :
    (set_default_desc (some "hello") ⟨false, none, none⟩).1 = true ∧
    set_default_desc (some "hello")
        (set_default_desc (some "hello") ⟨false, none, none⟩).2 =
      (false, (set_default_desc (some "hello") ⟨false, none, none⟩).2) ∧
    get_default_desc (set_default_desc (some "hello") ⟨false, none, none⟩).2 =
      Except.ok "hello" :=
  set_default_desc_twice "hello" ⟨false, none, none⟩ (by decide) (by decide)

/-- C9: reading a preference that was never written fails with the
`NotFound` error rather than returning a default or empty value. -/
theorem get_before_set_not_found (st : Store) :
    (st.token = none → get_github_token st = Except.error FsError.notFound) ∧
    (st.desc = none → get_default_desc st = Except.error FsError.notFound) := by
  constructor
  · intro h
    simp [get_github_token, h]
  · intro h
    simp [get_default_desc, h]

theorem get_before_set_not_found_witness :
    get_github_token ⟨false, none, none⟩ = Except.error FsError.notFound ∧
    get_default_desc ⟨false, none, none⟩ = Except.error FsError.notFound :=
  ⟨(get_before_set_not_found ⟨false, none, none⟩).1 rfl,
   (get_before_set_not_found ⟨false, none, none⟩).2 rfl⟩

/-! ## 32-bit bound of the issue-number parse -/

/-- Decimal value denoted by a run of digit characters. -/
def denoteDigits (cs : List Char) : Nat :=
  cs.foldl (fun a c => a * 10 + (c.toNat - 48)) 0

theorem digitsToNatAux_eq_foldl :
    ∀ (cs : List Char) (a : Nat), (∀ c ∈ cs, c.isDigit) →
      digitsToNatAux a cs =
        some (cs.foldl (fun x c => x * 10 + (c.toNat - 48)) a) := by
  intro cs
  induction cs with
  | nil => intro a _; rfl
  | cons c cs ih =>
    intro a h
    have hc := h c (List.mem_cons_self c cs)
    show (if c.isDigit then digitsToNatAux (a * 10 + (c.toNat - 48)) cs else none) = _
    rw [if_pos hc, List.foldl_cons]
    exact ih _ (fun d hd => h d (List.mem_cons_of_mem c hd))

theorem parseU32_overflow_none {s : String} (hne : s ≠ "")
    (hdig : ∀ c ∈ s.data, c.isDigit)
    (hbig : 4294967295 < denoteDigits s.data) : parseU32 s = none := by
  cases s with
  | mk l =>
    cases l with
    | nil => exact absurd rfl hne
    | cons c cs =>
      have hc : c.isDigit := hdig c (List.mem_cons_self c cs)
      have hplus : ¬ c = '+' := by
        intro h
        rw [h] at hc
        exact absurd hc (by decide)
      show (match digitsToNat (if c = '+' then cs else c :: cs) with
        | none => none
        | some n => if n < 4294967296 then some n else none) = none
      rw [if_neg hplus]
      have hd : digitsToNat (c :: cs) =
          some (denoteDigits (c :: cs)) :=
        digitsToNatAux_eq_foldl (c :: cs) 0 hdig
      rw [hd]
      have : ¬ denoteDigits (c :: cs) < 4294967296 := by
        have := hbig
        simp only [String.data] at this
        omega
      simp [this]

/-- C10: the second `-`-separated segment of the issue branch name is
parsed as a 32-bit unsigned integer, so a decimal numeral greater than
`u32::MAX = 4294967295` fails to parse and `pr_name` is left unchanged,
even though the segment denotes a non-negative integer. -/
theorem ask_pr_u32_overflow (b typeChoice : String) (scope : Option String)
    (nameInput : String) (s0 s1 : String) (rest : List String)
    (hsplit : split_on_hyphen b = s0 :: s1 :: rest)
    (hne : s1 ≠ "") (hdig : ∀ c ∈ s1.data, c.isDigit)
    (hbig : 4294967295 < denoteDigits s1.data) :
    parseU32 s1 = none ∧
    (ask_pr b typeChoice scope nameInput).pr_name =
      (ask_commit typeChoice scope nameInput).1 := by
  have hp := parseU32_overflow_none hne hdig hbig
  refine ⟨hp, ?_⟩
  simp [ask_pr, hsplit, hp]

theorem ask_pr_u32_overflow_witness :
    parseU32 "4294967296" = none ∧
    (ask_pr "x-4294967296" "feat        A new feature" none "n").pr_name =
      (ask_commit "feat        A new feature" none "n").1 :=
  ask_pr_u32_overflow "x-4294967296" "feat        A new feature" none "n" "x"
    "4294967296" [] (by decide) (by decide) (by decide) (by decide)
